import Mathlib

/-!
Shallow embedding of `src/web/script.js` (TargetTowers), the ball-sort puzzle.

Randomness: every call of `Math.random()` in the source yields a value in
`[0, 1)`.  We model the whole random tape as a function `rand : Nat → ℚ`
(the n-th value produced by `Math.random()`), together with a cursor that is
threaded through every stochastic operation exactly in source order.
Quantifying over all tapes satisfying `ValidRand` quantifies over every
possible sequence of random choices.

JS numbers are embedded as exact rationals (`ℚ`); integer quantities as `ℕ`
or `ℤ`.  JS `null` inside a board slot is `Option.none`; a present color is
`Option.some c`.  Indexing `a[i]` past the end of an array yields JS
`undefined`, which we model through `List.getElem?` returning `none` at the
outer level (see `slot2`).
-/

namespace TargetTowers

/-- The tape of values produced by successive `Math.random()` calls. -/
abbrev JSRand := Nat → ℚ

/-- Every value `Math.random()` can actually produce lies in `[0, 1)`. -/
def ValidRand (rand : JSRand) : Prop := ∀ n, 0 ≤ rand n ∧ rand n < 1

/-- JS `Math.floor` restricted to nonnegative arguments, landing in `ℕ`. -/
def jsFloorNat (q : ℚ) : ℕ := (⌊q⌋).toNat

/-- JS truncation toward zero (used by the `%` operator). -/
def jsTrunc (q : ℚ) : ℤ := if 0 ≤ q then ⌊q⌋ else ⌈q⌉

/-- JS remainder operator `a % b` on numbers: `a - b * trunc (a / b)`. -/
def jsMod (a b : ℚ) : ℚ := a - b * (jsTrunc (a / b) : ℚ)

/-- JS `Math.round` for nonnegative arguments: round half toward plus
infinity, i.e. `⌊q + 1/2⌋`. -/
def jsRound (q : ℚ) : ℤ := ⌊q + 1/2⌋

/-- The JS destructuring swap
`[array[i], array[j]] = [array[j], array[i]]` on a list (both indexes are in
range at every use site in the source). -/
def listSwap {α : Type*} (l : List α) (i j : ℕ) : List α :=
  match l[i]?, l[j]? with
  | some a, some b => (l.set i b).set j a
  | _, _ => l

lemma set_self_of_getElem? {α : Type*} :
    ∀ (l : List α) (i : ℕ) (a : α), l[i]? = some a → l.set i a = l := by
  intro l
  induction l with
  | nil => intro i a h; simp at h
  | cons x t ih =>
    intro i a h
    cases i with
    | zero => simp at h; simp [h]
    | succ m => simp at h; simp [List.set_cons_succ, ih m a h]

lemma cons_set_perm {α : Type*} :
    ∀ (t : List α) (m : ℕ) (b x : α), t[m]? = some b →
      (b :: t.set m x).Perm (x :: t) := by
  intro t
  induction t with
  | nil => intro m b x h; simp at h
  | cons y u ih =>
    intro m b x h
    cases m with
    | zero =>
      simp only [List.getElem?_cons_zero, Option.some.injEq] at h
      rw [List.set_cons_zero, ← h]
      exact List.Perm.swap x y u
    | succ k =>
      simp only [List.getElem?_cons_succ] at h
      have h1 : (b :: u.set k x).Perm (x :: u) := ih k b x h
      rw [List.set_cons_succ]
      exact (List.Perm.swap y b _).trans ((h1.cons y).trans (List.Perm.swap x y u))

lemma set_set_perm {α : Type*} :
    ∀ (l : List α) (i j : ℕ) (a b : α), l[i]? = some a → l[j]? = some b →
      ((l.set i b).set j a).Perm l := by
  intro l
  induction l with
  | nil => intro i j a b hi; simp at hi
  | cons x t ih =>
    intro i j a b hi hj
    cases i with
    | zero =>
      simp only [List.getElem?_cons_zero, Option.some.injEq] at hi
      cases j with
      | zero =>
        simp only [List.getElem?_cons_zero, Option.some.injEq] at hj
        rw [List.set_cons_zero, List.set_cons_zero, hi]
      | succ m =>
        simp only [List.getElem?_cons_succ] at hj
        rw [List.set_cons_zero, List.set_cons_succ, hi]
        exact cons_set_perm t m b a hj
    | succ m =>
      cases j with
      | zero =>
        simp only [List.getElem?_cons_succ] at hi
        simp only [List.getElem?_cons_zero, Option.some.injEq] at hj
        rw [List.set_cons_succ, List.set_cons_zero, hj]
        exact cons_set_perm t m a b hi
      | succ n =>
        simp only [List.getElem?_cons_succ] at hi hj
        rw [List.set_cons_succ, List.set_cons_succ]
        exact (ih m n a b hi hj).cons x

lemma listSwap_perm {α : Type*} (l : List α) (i j : ℕ) :
    (listSwap l i j).Perm l := by
  unfold listSwap
  split
  · next a b hi hj => exact set_set_perm l i j a b hi hj
  · exact List.Perm.refl l

/-- The source `shuffle`: for `currentIndex` from `1` to `length - 1`, draw
`randomIndex = Math.floor(Math.random() * currentIndex)` and swap the two
positions.  Returns the permuted list and the advanced random cursor. -/
def shuffleFrom {α : Type*} (rand : JSRand) (arr : List α) (k : ℕ) :
    List α × ℕ :=
  (List.range' 1 (arr.length - 1)).foldl
    (fun p i => (listSwap p.1 i (jsFloorNat (rand p.2 * i)), p.2 + 1))
    (arr, k)

lemma shuffleFrom_fst_perm {α : Type*} (rand : JSRand) (arr : List α) (k : ℕ) :
    (shuffleFrom rand arr k).1.Perm arr := by
  unfold shuffleFrom
  generalize List.range' 1 (arr.length - 1) = steps
  induction steps generalizing arr k with
  | nil => simp
  | cons s rest ih =>
    simp only [List.foldl_cons]
    exact (ih (listSwap arr s (jsFloorNat (rand k * s))) (k + 1)).trans
      (listSwap_perm arr s _)

lemma shuffleFrom_length {α : Type*} (rand : JSRand) (arr : List α) (k : ℕ) :
    (shuffleFrom rand arr k).1.length = arr.length :=
  (shuffleFrom_fst_perm rand arr k).length_eq

lemma shuffleFrom_mem {α : Type*} {rand : JSRand} {arr : List α} {k : ℕ}
    {x : α} (hx : x ∈ arr) : x ∈ (shuffleFrom rand arr k).1 :=
  ((shuffleFrom_fst_perm rand arr k).mem_iff).2 hx

/-- The source `randomIntFromInterval(min, max)`:
`Math.floor(Math.random() * (max - min + 1) + min)`, min and max included. -/
def randomIntFromInterval (rand : JSRand) (min max : ℚ) (k : ℕ) : ℤ × ℕ :=
  (⌊rand k * (max - min + 1) + min⌋, k + 1)

/-- The source `initNumberOfBalls(columns, height)`.  Note that
`maxBalls = columns * height / 2 + 1` uses exact JS division: it is NOT
floored before being handed to `randomIntFromInterval`. -/
def initNumberOfBalls (rand : JSRand) (columns height : ℕ) (k : ℕ) : ℤ × ℕ :=
  let minBalls : ℚ := (columns : ℚ) * 2
  let maxBalls : ℚ := (columns : ℚ) * (height : ℚ) / 2 + 1
  randomIntFromInterval rand minBalls maxBalls k

/-- One channel of the source `hslToHex`:
`k = (n + h/30) % 12; color = l - a * max(min(k-3, 9-k, 1), -1)`
(with `l` already divided by 100 and `a = s * min(l, 1-l) / 100`). -/
def hslChannelColor (h s l : ℚ) (n : ℚ) : ℚ :=
  let l1 := l / 100
  let a := s * min l1 (1 - l1) / 100
  let k := jsMod (n + h / 30) 12
  l1 - a * max (min (min (k - 3) (9 - k)) 1) (-1)

/-- Lower-case hex digit, as produced by JS `Number.toString(16)`. -/
def hexDigitChar (n : ℕ) : Char :=
  if n < 10 then Char.ofNat (48 + n) else Char.ofNat (87 + n)

/-- Two-digit hex rendering of a byte: `toString(16).padStart(2, '0')`
agrees with this for every value in `[0, 255]`. -/
def toHexByte (n : ℕ) : String :=
  String.mk [hexDigitChar (n / 16), hexDigitChar (n % 16)]

/-- The source `hslToHex(h, s, l)`, producing the string
`#` ++ f(0) ++ f(8) ++ f(4). -/
def hslToHex (h s l : ℚ) : String :=
  let f := fun (n : ℚ) => toHexByte (jsRound (255 * hslChannelColor h s l n)).toNat
  "#" ++ f 0 ++ f 8 ++ f 4

/-- The list built by the loop of `initializeColors(colorsLength)`:
`hslToHex(i * (360 / colorsLength) % 360, 100, 50)` for `i` from `0` to
`colorsLength - 1`. -/
def colors_list (colorsLength : ℕ) : List String :=
  (List.range colorsLength).map fun (i : ℕ) =>
    hslToHex (jsMod ((i : ℚ) * (360 / (colorsLength : ℚ))) 360) 100 50

/-- The source `initializeColors(colorsLength)`: build `colors_list`, then
shuffle it in place and return it. -/
def initializeColors (rand : JSRand) (colorsLength : ℕ) (k : ℕ) :
    List String × ℕ :=
  shuffleFrom rand (colors_list colorsLength) k

/-- Failure modes of `chooseBallsInColumn`.  `capacityExceeded` is the
thrown `Error("Cannot hold all the balls")`.  `searchFailed` models the
control flow when the candidate loop is exhausted: the JS function then
returns `undefined`, which the recursive caller's spread turns into a
`TypeError` caught by the same `catch` that catches the explicit `Error`. -/
inductive PartitionError : Type
  | capacityExceeded : PartitionError
  | searchFailed : PartitionError
deriving DecidableEq, Repr

/-- The candidate loop of `chooseBallsInColumn`: try each
`firstColumnBalls` in order; on failure of the recursive step continue
with the next candidate; falling off the end is `searchFailed` (JS:
returning `undefined`). -/
def tryCand (step : ℕ → ℕ → Except PartitionError (List ℕ) × ℕ) :
    List ℕ → ℕ → Except PartitionError (List ℕ) × ℕ
  | [], k => (.error .searchFailed, k)
  | c :: rest, k =>
    let r := step c k
    match r.1 with
    | .ok tail => (.ok (c :: tail), r.2)
    | .error _ => tryCand step rest r.2

/-- The source `chooseBallsInColumn(columns, balls, height)`.

The entry check is JS `balls / columns > height` with exact division; for
`columns ≥ 1` it is equivalent to `balls > columns * height`.  `columns = 0`
is outside the modelled domain (JS produces `Infinity`/`NaN` there and, for
`balls = 0`, unbounded recursion); we return `capacityExceeded` to keep the
function total, and every theorem assumes `1 ≤ columns`.  `columns = 0` in
the second branch is JS `columns === 1` after the `columns + 1` pattern. -/
def chooseBallsInColumn (rand : JSRand) :
    ℕ → ℕ → ℕ → ℕ → Except PartitionError (List ℕ) × ℕ
  | 0, _, _, k => (.error .capacityExceeded, k)
  | columns + 1, balls, height, k =>
    if ((balls : ℚ) / (((columns + 1 : ℕ)) : ℚ) > (height : ℚ)) then
      (.error .capacityExceeded, k)
    else if columns = 0 then (.ok [balls], k)
    else
      let possibilities := List.range (min height balls + 1)
      let p := shuffleFrom rand possibilities k
      tryCand (fun c k1 => chooseBallsInColumn rand columns (balls - c) height k1)
        p.1 p.2

/-- A board: `columns` lists of `height` slots, each `none` (JS `null`) or a
ball. -/
abbrev Board (α : Type*) := List (List (Option α))

/-- One column of `initializeState`: slot `j` holds the next color while
`j < columnLength` and `null` above.  The running `colorIndex` is `ci + j`
at slot `j` (the source increments it once per colored slot).  Out-of-range
color access (JS `undefined`) cannot occur when the partition sums to the
number of colors (proved below); it is conflated with `null` here. -/
def mkColumn {α : Type*} (colors : List α) (columnLength height ci : ℕ) :
    List (Option α) :=
  (List.range height).map fun j => if j < columnLength then colors[ci + j]? else none

/-- The column loop of `initializeState` over `ballsInColumns`, threading
the running `colorIndex`. -/
def buildColumns {α : Type*} (colors : List α) :
    List ℕ → ℕ → ℕ → Board α
  | [], _, _ => []
  | columnLength :: rest, height, ci =>
    mkColumn colors columnLength height ci ::
      buildColumns colors rest height (ci + columnLength)

/-- The source `initializeState(elements, columns, height)`: shuffle a copy
of the colors, partition `elements.length` balls over the columns, then lay
the shuffled colors bottom-up per column.  A partition failure (thrown in
JS) is `none`.  The `generatePythonCode` call is console logging only and
is not modelled. -/
def initializeState {α : Type*} (rand : JSRand) (elements : List α)
    (columns height : ℕ) (k : ℕ) : Option (Board α) × ℕ :=
  let p := shuffleFrom rand elements k
  let q := chooseBallsInColumn rand columns elements.length height p.2
  match q.1 with
  | .error _ => (none, q.2)
  | .ok ballsInColumns => (some (buildColumns p.1 ballsInColumns height 0), q.2)

/-- `state[i][j]` as a JS value: `none` is `undefined` (an index out of
range), `some none` is `null`, `some (some c)` is a color. -/
def slot2 {α : Type*} (b : Board α) (i j : ℕ) : Option (Option α) :=
  b[i]?.bind fun col => col[j]?

/-- The value `state[i][j]` seen as a slot content, conflating JS
`undefined` with `null` (only in-range accesses occur in the source). -/
def jsGet2 {α : Type*} (b : Board α) (i j : ℕ) : Option α :=
  (slot2 b i j).join

/-- The mutable state owned by the script: the playable board `state` and
`selectedPiece` (JS `null` or `{column, row}`). -/
structure GameState (α : Type*) where
  board : Board α
  selectedPiece : Option (ℕ × ℕ)

/-- Write `state[c][r] = v`.  In the source both indexes are always in
range; out-of-range writes are modelled as no-ops. -/
def setSlot {α : Type*} (b : Board α) (c r : ℕ) (v : Option α) : Board α :=
  match b[c]? with
  | some col => b.set c (col.set r v)
  | none => b

/-- The loop of `findTopPiece`: `for (i = HEIGHT - 1; i >= 0; i--)`,
returning the first `i` with `state[col][i] !== null`.  The argument of the
outer `match` counts how many indexes below the cursor remain. -/
def findTopPieceAux {α : Type*} (col : List (Option α)) : ℕ → ℤ
  | 0 => -1
  | i + 1 =>
    match col[i]? with
    | some none => findTopPieceAux col i
    | _ => (i : ℤ)

/-- The source `findTopPiece(columnIndex)`. -/
def findTopPiece {α : Type*} (b : Board α) (height c : ℕ) : ℤ :=
  findTopPieceAux (b[c]?.getD []) height

/-- The loop of `findEmptyRow`: `for (i = 0; i <= HEIGHT; i++)`, returning
the first `i` with `state[col][i] === null`.  Note the loop bound really is
`height` INCLUSIVE, exactly as in the source; at `i = height` the access
yields JS `undefined`, and `undefined === null` is false. -/
def findEmptyRowAux {α : Type*} (col : List (Option α)) (stop : ℕ) (i : ℕ) : ℤ :=
  if i ≤ stop then
    match col[i]? with
    | some none => (i : ℤ)
    | _ => findEmptyRowAux col stop (i + 1)
  else -1
termination_by stop + 1 - i

/-- The source `findEmptyRow(columnIndex)`. -/
def findEmptyRow {α : Type*} (b : Board α) (height c : ℕ) : ℤ :=
  findEmptyRowAux (b[c]?.getD []) height 0

/-- The source `handleFirstClick(columnIndex)`. -/
def handleFirstClick {α : Type*} (height columnIndex : ℕ) (s : GameState α) :
    GameState α :=
  let rowTopPiece := findTopPiece s.board height columnIndex
  if rowTopPiece = -1 then { s with selectedPiece := none }
  else { s with selectedPiece := some (columnIndex, rowTopPiece.toNat) }

/-- The source `handleSecondClick(columnIndex)`.  `handleClick` only calls
it with `selectedPiece ≠ null`; the `none` branch is dead code kept for
totality. -/
def handleSecondClick {α : Type*} (height columnIndex : ℕ) (s : GameState α) :
    GameState α :=
  match s.selectedPiece with
  | none => s
  | some sel =>
    if columnIndex = sel.1 then { s with selectedPiece := none }
    else
      let targetRow := findEmptyRow s.board height columnIndex
      if targetRow ≠ -1 then
        let moved := jsGet2 s.board sel.1 sel.2
        let b1 := setSlot s.board columnIndex targetRow.toNat moved
        let b2 := setSlot b1 sel.1 sel.2 none
        { board := b2, selectedPiece := none }
      else { s with selectedPiece := none }

/-- The source `handleClick(columnIndex)` (the re-rendering calls are
presentation only and not modelled). -/
def handleClick {α : Type*} (height columnIndex : ℕ) (s : GameState α) :
    GameState α :=
  match s.selectedPiece with
  | none => handleFirstClick height columnIndex s
  | some _ => handleSecondClick height columnIndex s

/-- The source `haveWon()`: scan every `(i, j)` with `i < COLUMNS`,
`j < HEIGHT` and compare `state[i][j] !== referenceState[i][j]` (strict JS
comparison of slot values, modelled on `slot2`). -/
def haveWon {α : Type*} [DecidableEq α] (state referenceState : Board α)
    (columns height : ℕ) : Bool :=
  (List.range columns).all fun i => (List.range height).all fun j =>
    decide (slot2 state i j = slot2 referenceState i j)

/-! ## Basic facts about the random primitives -/

lemma jsFloorNat_lt {rand : JSRand} (hr : ValidRand rand) (n i : ℕ)
    (hi : 1 ≤ i) : jsFloorNat (rand n * i) < i := by
  have h0 := (hr n).1
  have h1 := (hr n).2
  have hx : rand n * (i : ℚ) < (i : ℚ) := by
    have : (0 : ℚ) < (i : ℚ) := by exact_mod_cast hi
    calc rand n * (i : ℚ) < 1 * (i : ℚ) := by
          exact mul_lt_mul_of_pos_right h1 this
      _ = (i : ℚ) := one_mul _
  have hfl : ⌊rand n * (i : ℚ)⌋ < (i : ℤ) := by
    rw [Int.floor_lt]
    exact_mod_cast hx
  have hnn : (0 : ℤ) ≤ ⌊rand n * (i : ℚ)⌋ := by
    apply Int.floor_nonneg.2
    positivity
  unfold jsFloorNat
  omega

/-! ## C6: the ball-count bounds -/

/-- C6 (amended): under the non-emptiness condition
`2 * columns ≤ ⌊columns * height / 2⌋ + 1`, for every random value
`initNumberOfBalls` returns `N` with `2 * columns ≤ N` and
`N ≤ ⌈columns * height / 2⌉ + 1`.  (The source does NOT floor
`maxBalls = columns * height / 2 + 1`, so when `columns * height` is odd the
result can exceed the claimed bound `⌊columns * height / 2⌋ + 1` by one.) -/
theorem initNumberOfBalls_bounds (rand : JSRand) (hr : ValidRand rand)
    (columns height k : ℕ)
    (hne : (2 * columns : ℤ) ≤ ⌊(columns * height : ℚ) / 2⌋ + 1) :
    (2 * columns : ℤ) ≤ (initNumberOfBalls rand columns height k).1 ∧
      (initNumberOfBalls rand columns height k).1 ≤
        ⌈(columns * height : ℚ) / 2⌉ + 1 := by
  have h0 := (hr k).1
  have h1 := (hr k).2
  have hL : (1 : ℚ) ≤ (columns : ℚ) * (height : ℚ) / 2 + 1 - (columns : ℚ) * 2 + 1 := by
    have hfl : ((2 * columns : ℤ) : ℚ) ≤ (⌊(columns * height : ℚ) / 2⌋ : ℚ) + 1 := by
      exact_mod_cast hne
    have hfl2 : ((⌊(columns * height : ℚ) / 2⌋ : ℤ) : ℚ) ≤ (columns * height : ℚ) / 2 :=
      Int.floor_le _
    push_cast at hfl ⊢
    linarith
  constructor
  · show (2 * columns : ℤ) ≤ ⌊rand k * ((columns : ℚ) * height / 2 + 1 - columns * 2 + 1) + columns * 2⌋
    rw [Int.le_floor]
    have hnn : (0 : ℚ) ≤ rand k * ((columns : ℚ) * height / 2 + 1 - columns * 2 + 1) := by
      apply mul_nonneg h0
      linarith
    have : (2 : ℚ) * (columns : ℚ) ≤
        rand k * ((columns : ℚ) * height / 2 + 1 - columns * 2 + 1) + (columns : ℚ) * 2 := by
      linarith
    exact_mod_cast this
  · show ⌊rand k * ((columns : ℚ) * height / 2 + 1 - columns * 2 + 1) + columns * 2⌋ ≤
      ⌈(columns * height : ℚ) / 2⌉ + 1
    have harg : rand k * ((columns : ℚ) * height / 2 + 1 - columns * 2 + 1) + columns * 2 <
        (columns : ℚ) * height / 2 + 2 := by
      have hLpos : (0 : ℚ) < (columns : ℚ) * height / 2 + 1 - columns * 2 + 1 := by
        linarith
      have := mul_lt_mul_of_pos_right h1 hLpos
      rw [one_mul] at this
      linarith
    have hceil : (columns : ℚ) * height / 2 ≤ ((⌈(columns * height : ℚ) / 2⌉ : ℤ) : ℚ) := by
      exact_mod_cast Int.le_ceil ((columns * height : ℚ) / 2)
    have : (⌊rand k * ((columns : ℚ) * height / 2 + 1 - columns * 2 + 1) + columns * 2⌋ : ℤ) <
        ⌈(columns * height : ℚ) / 2⌉ + 2 := by
      rw [Int.floor_lt]
      push_cast
      push_cast at hceil
      linarith
    omega

/-- C6 witness: at `columns = 3`, `height = 4` (the source configuration)
with the constant-zero tape the bounds are met. -/
theorem initNumberOfBalls_bounds_witness :
    (2 * 3 : ℤ) ≤ (initNumberOfBalls (fun _ => 0) 3 4 0).1 ∧
      (initNumberOfBalls (fun _ => 0) 3 4 0).1 ≤ ⌈(3 * 4 : ℚ) / 2⌉ + 1 := by
  have h := initNumberOfBalls_bounds (fun _ => 0)
    (fun n => ⟨le_refl 0, by norm_num⟩) 3 4 0 (by norm_num)
  exact_mod_cast h

/-- C6 counterexample: for `columns = 3`, `height = 5` (a configuration with
a non-empty interval: `6 ≤ ⌊15/2⌋ + 1 = 8`) and the valid random value
`9/10`, the source returns `9`, exceeding the claimed inclusive upper bound
`⌊columns * height / 2⌋ + 1 = 8`. -/
theorem initNumberOfBalls_exceeds_claimed_bound :
    ValidRand (fun _ => 9 / 10) ∧
      (2 * 3 : ℤ) ≤ ⌊(3 * 5 : ℚ) / 2⌋ + 1 ∧
      (initNumberOfBalls (fun _ => 9 / 10) 3 5 0).1 = 9 ∧
      ¬ ((initNumberOfBalls (fun _ => 9 / 10) 3 5 0).1 ≤ ⌊(3 * 5 : ℚ) / 2⌋ + 1) := by
  have h9 : (initNumberOfBalls (fun _ => 9 / 10) 3 5 0).1 = 9 := by
    show ⌊(9 / 10 : ℚ) * ((3 : ℕ) * (5 : ℕ) / 2 + 1 - (3 : ℕ) * 2 + 1) + (3 : ℕ) * 2⌋ = 9
    norm_num
  refine ⟨fun n => ⟨by norm_num, by norm_num⟩, by norm_num, h9, ?_⟩
  rw [h9]
  norm_num

/-! ## C3: the capacity check -/

/-- C3: whenever `balls / columns > height` (JS exact division,
`columns ≥ 1`), `chooseBallsInColumn` fails with the capacity error, the
random cursor untouched: the check fires at entry, before any candidate is
generated or tried, and no partial result is produced. -/
theorem chooseBallsInColumn_capacity_exceeded (rand : JSRand)
    (columns balls height k : ℕ) (hc : 1 ≤ columns)
    (h : (height : ℚ) < (balls : ℚ) / (columns : ℚ)) :
    chooseBallsInColumn rand columns balls height k =
      (.error .capacityExceeded, k) := by
  obtain ⟨m, rfl⟩ : ∃ m, columns = m + 1 := ⟨columns - 1, by omega⟩
  rw [chooseBallsInColumn, if_pos]
  exact h

/-- C3 witness: `columns = 3`, `balls = 13`, `height = 4`. -/
theorem chooseBallsInColumn_capacity_exceeded_witness :
    chooseBallsInColumn (fun _ => 0) 3 13 4 0 =
      (.error .capacityExceeded, 0) :=
  chooseBallsInColumn_capacity_exceeded (fun _ => 0) 3 13 4 0 (by norm_num)
    (by norm_num)

/-! ## C4: the shuffle -/

/-- C4 (amended): `shuffle` iterates `i` from `1` to `length - 1` and swaps
element `i` with the element at index `j = ⌊random * i⌋`, which lies in
`[0, i - 1]` — never `j = i` — and the result is always a permutation of
the input (but not an unbiased one: see the counterexample showing the
identity permutation is unreachable). -/
theorem shuffle_spec {α : Type*} (rand : JSRand) (hr : ValidRand rand)
    (arr : List α) (k : ℕ) :
    (shuffleFrom rand arr k).1.Perm arr ∧
      (∀ n i : ℕ, 1 ≤ i → jsFloorNat (rand n * i) ≤ i - 1) := by
  refine ⟨shuffleFrom_fst_perm rand arr k, fun n i hi => ?_⟩
  have := jsFloorNat_lt hr n i hi
  omega

/-- C4 witness: a concrete shuffle of `[0, 1, 2]` under the constant-zero
tape is a permutation of the input, and the index drawn at step `i = 2`
is at most `1`. -/
theorem shuffle_spec_witness :
    (shuffleFrom (fun _ => 0) [0, 1, 2] 0).1.Perm [0, 1, 2] ∧
      jsFloorNat ((fun _ => (0 : ℚ)) 1 * 2) ≤ 1 := by
  have h := shuffle_spec (α := ℕ) (fun _ => 0)
    (fun n => ⟨le_refl 0, by norm_num⟩) [0, 1, 2] 0
  exact ⟨h.1, h.2 1 2 (by norm_num)⟩

/-- C4 counterexample: on the two-element list `[0, 1]` no valid random
tape can make `shuffle` return the input itself: the only drawable index at
step `i = 1` is `0` (never `1`), so the elements are always exchanged and
the identity permutation is not a possible output — the claim that `j = i`
is possible and every permutation reachable is false. -/
theorem shuffle_identity_unreachable :
    ¬ ∃ rand : JSRand, ValidRand rand ∧
      (shuffleFrom rand [0, 1] 0).1 = [0, 1] := by
  rintro ⟨rand, hr, h⟩
  have hj0 : jsFloorNat (rand 0 * ((1 : ℕ) : ℚ)) = 0 := by
    have := jsFloorNat_lt hr 0 1 (le_refl 1)
    omega
  have e1 : (shuffleFrom rand [0, 1] 0).1 =
      listSwap [0, 1] 1 (jsFloorNat (rand 0 * ((1 : ℕ) : ℚ))) := rfl
  rw [e1, hj0] at h
  exact absurd h (by decide)

/-! ## C7: the win test -/

/-- C7: `haveWon` is true exactly when every in-range slot of the playable
board strictly equals the corresponding slot of the reference board (it is
a pure query: in this embedding it is a function of the two boards and
touches neither, and the source mutates nothing in its body). -/
theorem haveWon_iff {α : Type*} [DecidableEq α] (state referenceState : Board α)
    (columns height : ℕ) :
    haveWon state referenceState columns height = true ↔
      ∀ i < columns, ∀ j < height,
        slot2 state i j = slot2 referenceState i j := by
  simp [haveWon, List.all_eq_true, List.mem_range]

/-! ## C8: building a board from a partition -/

/-- Number of filled (non-`null`) slots of a column. -/
def countFilled {α : Type*} (col : List (Option α)) : ℕ :=
  col.countP fun o => o.isSome

lemma countP_lt_range (len : ℕ) :
    ∀ height : ℕ, len ≤ height →
      (List.range height).countP (fun j => decide (j < len)) = len := by
  intro height
  induction height with
  | zero =>
    intro h
    have : len = 0 := by omega
    subst this
    simp
  | succ n ih =>
    intro h
    rw [List.range_succ, List.countP_append]
    by_cases hn : len ≤ n
    · rw [ih hn]
      simp [List.countP_cons, Nat.not_lt.2 hn]
    · have hl : len = n + 1 := by omega
      subst hl
      have hall : (List.range n).countP (fun j => decide (j < n + 1)) = n := by
        have htrue : ∀ a ∈ List.range n, (fun j => decide (j < n + 1)) a = true := by
          intro a ha
          rw [List.mem_range] at ha
          simpa using by omega
        rw [List.countP_eq_length.2 htrue]
        simp
      rw [hall]
      simp [List.countP_cons]

lemma mkColumn_getElem? {α : Type*} (colors : List α) (len height ci j : ℕ)
    (hj : j < height) :
    (mkColumn colors len height ci)[j]? =
      some (if j < len then colors[ci + j]? else none) := by
  unfold mkColumn
  rw [List.getElem?_map, List.getElem?_range hj]
  rfl

lemma mkColumn_length {α : Type*} (colors : List α) (len height ci : ℕ) :
    (mkColumn colors len height ci).length = height := by
  simp [mkColumn]

lemma countFilled_mkColumn {α : Type*} (colors : List α) (len height ci : ℕ)
    (hlen : len ≤ height) (hci : ci + len ≤ colors.length) :
    countFilled (mkColumn colors len height ci) = len := by
  unfold countFilled mkColumn
  rw [List.countP_map]
  rw [List.countP_congr (q := fun j => decide (j < len))]
  · exact countP_lt_range len height hlen
  · intro j hj
    rw [List.mem_range] at hj
    simp only [Function.comp]
    by_cases h : j < len
    · have hin : ci + j < colors.length := by omega
      rw [if_pos h, List.getElem?_eq_getElem hin]
      simp [h]
    · rw [if_neg h]
      simp [h]

lemma buildColumns_counts {α : Type*} (colors : List α) :
    ∀ (ballsInColumns : List ℕ) (height ci : ℕ),
      (∀ b ∈ ballsInColumns, b ≤ height) →
      ci + ballsInColumns.sum ≤ colors.length →
      (buildColumns colors ballsInColumns height ci).map countFilled =
        ballsInColumns := by
  intro l
  induction l with
  | nil => intro height ci _ _; rfl
  | cons len rest ih =>
    intro height ci hb hsum
    simp only [List.sum_cons] at hsum
    simp only [buildColumns, List.map_cons]
    rw [countFilled_mkColumn colors len height ci
      (hb len (List.mem_cons_self len rest)) (by omega)]
    rw [ih height (ci + len) (fun b hb' => hb b (List.mem_cons_of_mem len hb'))
      (by omega)]

lemma buildColumns_shape {α : Type*} (colors : List α) :
    ∀ (ballsInColumns : List ℕ) (height ci cIdx len : ℕ),
      (∀ b ∈ ballsInColumns, b ≤ height) →
      ci + ballsInColumns.sum ≤ colors.length →
      ballsInColumns[cIdx]? = some len →
      ∀ j < height,
        (jsGet2 (buildColumns colors ballsInColumns height ci) cIdx j).isSome =
          decide (j < len) := by
  intro l
  induction l with
  | nil => intro height ci cIdx len _ _ h; simp at h
  | cons l0 rest ih =>
    intro height ci cIdx len hb hsum hidx j hj
    simp only [List.sum_cons] at hsum
    cases cIdx with
    | zero =>
      have hlen : l0 = len := by simpa using hidx
      subst hlen
      unfold jsGet2 slot2 buildColumns
      simp only [List.getElem?_cons_zero, Option.some_bind]
      rw [mkColumn_getElem? colors l0 height ci j hj]
      by_cases h : j < l0
      · have hin : ci + j < colors.length := by omega
        rw [if_pos h, List.getElem?_eq_getElem hin]
        simp [Option.join, h]
      · rw [if_neg h]
        simp [Option.join, h]
    | succ m =>
      simp only [List.getElem?_cons_succ] at hidx
      have := ih height (ci + l0) m len
        (fun b hb' => hb b (List.mem_cons_of_mem l0 hb')) (by omega) hidx j hj
      unfold jsGet2 slot2 at this ⊢
      simpa [buildColumns] using this

/-- C8: a board built from a partition (every entry at most `height`) and a
color sequence whose length is the partition's sum has, in each column,
exactly the partitioned number of filled slots, occupying rows
`0 .. partition[c] - 1` with `null` above, so counting filled slots per
column reproduces the partition exactly. -/
theorem buildColumns_roundtrip {α : Type*} (colors : List α)
    (partition : List ℕ) (height : ℕ)
    (hb : ∀ b ∈ partition, b ≤ height)
    (hsum : partition.sum = colors.length) :
    (buildColumns colors partition height 0).map countFilled = partition ∧
      ∀ cIdx len, partition[cIdx]? = some len → ∀ j < height,
        (jsGet2 (buildColumns colors partition height 0) cIdx j).isSome =
          decide (j < len) :=
  ⟨buildColumns_counts colors partition height 0 hb (by omega),
    fun cIdx len hidx j hj =>
      buildColumns_shape colors partition height 0 cIdx len hb (by omega) hidx j hj⟩

/-- C8 witness: colors `[5, 6, 7]`, partition `[2, 1, 0]`, height `2`. -/
theorem buildColumns_roundtrip_witness :
    (buildColumns [5, 6, 7] [2, 1, 0] 2 0).map countFilled = [2, 1, 0] ∧
      (jsGet2 (buildColumns [5, 6, 7] [2, 1, 0] 2 0) 0 1).isSome =
        decide (1 < 2) := by
  have h := buildColumns_roundtrip [5, 6, 7] [2, 1, 0] 2
    (by intro b hb; fin_cases hb <;> omega) (by rfl)
  exact ⟨h.1, h.2 0 2 (by rfl) 1 (by omega)⟩

/-! ## C1: the partitioner succeeds on every feasible input -/

lemma entry_check_iff (balls height m : ℕ) :
    ((height : ℚ) < (balls : ℚ) / ((m + 1 : ℕ) : ℚ)) ↔
      (m + 1) * height < balls := by
  rw [lt_div_iff₀ (by positivity : (0 : ℚ) < ((m + 1 : ℕ) : ℚ))]
  rw [show (height : ℚ) * ((m + 1 : ℕ) : ℚ) = (((m + 1) * height : ℕ) : ℚ) by
    push_cast; ring]
  exact_mod_cast Iff.rfl

lemma tryCand_eq_ok {step : ℕ → ℕ → Except PartitionError (List ℕ) × ℕ} :
    ∀ (cands : List ℕ) (k : ℕ) (l : List ℕ) (k2 : ℕ),
      tryCand step cands k = (.ok l, k2) →
      ∃ c ∈ cands, ∃ k1 tail k3,
        step c k1 = (.ok tail, k3) ∧ l = c :: tail := by
  intro cands
  induction cands with
  | nil => intro k l k2 h; simp [tryCand] at h
  | cons c rest ih =>
    intro k l k2 h
    simp only [tryCand] at h
    split at h
    · next tail heq =>
      have hpair : step c k = (.ok tail, (step c k).2) := by rw [← heq]
      have hl : l = c :: tail := by
        have := congrArg Prod.fst h
        simpa using this.symm
      exact ⟨c, List.mem_cons_self c rest, k, tail, (step c k).2, hpair, hl⟩
    · next e heq =>
      obtain ⟨c1, hc1, k1, tail, k3, hstep, hl⟩ := ih _ l k2 h
      exact ⟨c1, List.mem_cons_of_mem c hc1, k1, tail, k3, hstep, hl⟩

lemma tryCand_success {step : ℕ → ℕ → Except PartitionError (List ℕ) × ℕ} :
    ∀ (cands : List ℕ),
      (∃ c ∈ cands, ∀ k1, ∃ tail k3, step c k1 = (.ok tail, k3)) →
      ∀ k, ∃ l k2, tryCand step cands k = (.ok l, k2) := by
  intro cands
  induction cands with
  | nil => rintro ⟨c, hc, _⟩; simp at hc
  | cons c0 rest ih =>
    rintro ⟨c, hc, hstep⟩ k
    cases hs : (step c0 k).1 with
    | ok tail =>
      refine ⟨c0 :: tail, (step c0 k).2, ?_⟩
      simp only [tryCand, hs]
    | error e =>
      have hc' : c ∈ rest := by
        rcases List.mem_cons.mp hc with rfl | h'
        · obtain ⟨tail, k3, hk⟩ := hstep k
          rw [hk] at hs
          simp at hs
        · exact h'
      obtain ⟨l, k2, hrec⟩ := ih ⟨c, hc', hstep⟩ ((step c0 k).2)
      refine ⟨l, k2, ?_⟩
      simp only [tryCand, hs]
      exact hrec

lemma choose_sound (rand : JSRand) :
    ∀ (columns balls height k : ℕ) (l : List ℕ) (k2 : ℕ),
      chooseBallsInColumn rand columns balls height k = (.ok l, k2) →
      l.length = columns ∧ (∀ x ∈ l, x ≤ height) ∧ l.sum = balls := by
  intro columns
  induction columns with
  | zero =>
    intro balls height k l k2 h
    rw [chooseBallsInColumn] at h
    simp at h
  | succ m ih =>
    intro balls height k l k2 h
    rw [chooseBallsInColumn] at h
    by_cases hg : ((balls : ℚ) / ((m + 1 : ℕ) : ℚ) > (height : ℚ))
    · rw [if_pos hg] at h
      simp at h
    · rw [if_neg hg] at h
      have hcap : balls ≤ (m + 1) * height := by
        by_contra hb
        exact hg ((entry_check_iff balls height m).2 (by omega))
      by_cases hm : m = 0
      · subst hm
        rw [if_pos rfl] at h
        have hl : l = [balls] := by
          have := congrArg Prod.fst h
          simpa using this.symm
        subst hl
        refine ⟨rfl, ?_, by simp⟩
        intro x hx
        simp only [List.mem_singleton] at hx
        subst hx
        omega
      · rw [if_neg hm] at h
        obtain ⟨c, hcmem, k1, tail, k3, hstep, rfl⟩ := tryCand_eq_ok _ _ l k2 h
        have hcposs : c ∈ List.range (min height balls + 1) :=
          (shuffleFrom_fst_perm rand (List.range (min height balls + 1)) k).mem_iff.1
            hcmem
        rw [List.mem_range] at hcposs
        obtain ⟨hlen, hbound, hsum⟩ := ih (balls - c) height k1 tail k3 hstep
        refine ⟨by simp [hlen], ?_, ?_⟩
        · intro x hx
          rcases List.mem_cons.mp hx with rfl | hx'
          · omega
          · exact hbound x hx'
        · simp only [List.sum_cons, hsum]
          omega

lemma choose_complete (rand : JSRand) :
    ∀ (columns balls height : ℕ), 1 ≤ columns → balls ≤ columns * height →
      ∀ k, ∃ l k2,
        chooseBallsInColumn rand columns balls height k = (.ok l, k2) := by
  intro columns
  induction columns with
  | zero => intro balls height h; omega
  | succ m ih =>
    intro balls height _ hcap k
    rw [chooseBallsInColumn]
    have hg : ¬ ((balls : ℚ) / ((m + 1 : ℕ) : ℚ) > (height : ℚ)) := by
      rw [gt_iff_lt, entry_check_iff]
      omega
    rw [if_neg hg]
    by_cases hm : m = 0
    · subst hm
      rw [if_pos rfl]
      exact ⟨[balls], k, rfl⟩
    · rw [if_neg hm]
      apply tryCand_success
      refine ⟨min height balls,
        shuffleFrom_mem (List.mem_range.2 (by omega)), ?_⟩
      intro k1
      have hkey : balls - min height balls ≤ m * height := by
        rcases Nat.le_total balls height with hb | hb
        · rw [min_eq_right hb]
          omega
        · rw [min_eq_left hb]
          have hexp : (m + 1) * height = m * height + height := by ring
          omega
      exact ih (balls - min height balls) height (by omega) hkey k1

/-- C1: for every `columns ≥ 1`, `balls`, `height` with
`balls / columns ≤ height` (JS exact division, i.e.
`balls ≤ columns * height`) and every random tape, `chooseBallsInColumn`
terminates with success and its result is a list of exactly `columns`
naturals, each at most `height`, summing exactly to `balls`. -/
theorem chooseBallsInColumn_partition (rand : JSRand) (_hr : ValidRand rand)
    (columns balls height k : ℕ) (hc : 1 ≤ columns)
    (hcap : (balls : ℚ) / (columns : ℚ) ≤ (height : ℚ)) :
    ∃ partition k2,
      chooseBallsInColumn rand columns balls height k = (.ok partition, k2) ∧
        partition.length = columns ∧ (∀ x ∈ partition, x ≤ height) ∧
        partition.sum = balls := by
  obtain ⟨m, rfl⟩ : ∃ m, columns = m + 1 := ⟨columns - 1, by omega⟩
  have h1 : ¬ ((height : ℚ) < (balls : ℚ) / ((m + 1 : ℕ) : ℚ)) := not_lt.2 hcap
  have hcap' : balls ≤ (m + 1) * height := by
    by_contra hb
    exact h1 ((entry_check_iff balls height m).2 (by omega))
  obtain ⟨l, k2, h⟩ := choose_complete rand (m + 1) balls height (by omega) hcap' k
  obtain ⟨hlen, hbd, hsum⟩ := choose_sound rand (m + 1) balls height k l k2 h
  exact ⟨l, k2, h, hlen, hbd, hsum⟩

/-- C1 witness: the source configuration `columns = 3`, `height = 4` with
`balls = 6` and the constant-zero tape. -/
theorem chooseBallsInColumn_partition_witness :
    ∃ partition k2,
      chooseBallsInColumn (fun _ => 0) 3 6 4 0 = (.ok partition, k2) ∧
        partition.length = 3 ∧ (∀ x ∈ partition, x ≤ 4) ∧
        partition.sum = 6 :=
  chooseBallsInColumn_partition (fun _ => 0) (fun n => ⟨le_refl 0, by norm_num⟩)
    3 6 4 0 (by norm_num) (by norm_num)

/-! ## C9: the palette -/

lemma hslToHex_eq_of (h : ℚ) (r g b : ℤ)
    (hr : jsRound (255 * hslChannelColor h 100 50 0) = r)
    (hg : jsRound (255 * hslChannelColor h 100 50 8) = g)
    (hb : jsRound (255 * hslChannelColor h 100 50 4) = b) :
    hslToHex h 100 50 =
      "#" ++ toHexByte r.toNat ++ toHexByte g.toNat ++ toHexByte b.toNat := by
  rw [show hslToHex h 100 50 =
      "#" ++ toHexByte (jsRound (255 * hslChannelColor h 100 50 0)).toNat ++
        toHexByte (jsRound (255 * hslChannelColor h 100 50 8)).toNat ++
        toHexByte (jsRound (255 * hslChannelColor h 100 50 4)).toNat from rfl]
  rw [hr, hg, hb]

lemma palette6_0 :
    hslToHex (jsMod (((0 : ℕ) : ℚ) * (360 / ((6 : ℕ) : ℚ))) 360) 100 50 =
      "#ff0000" := by
  have e := hslToHex_eq_of (jsMod (((0 : ℕ) : ℚ) * (360 / ((6 : ℕ) : ℚ))) 360)
    255 0 0 (by norm_num [hslChannelColor, jsMod, jsTrunc, jsRound, min_def, max_def]) (by norm_num [hslChannelColor, jsMod, jsTrunc, jsRound, min_def, max_def]) (by norm_num [hslChannelColor, jsMod, jsTrunc, jsRound, min_def, max_def])
  rw [e]
  decide

lemma palette6_1 :
    hslToHex (jsMod (((1 : ℕ) : ℚ) * (360 / ((6 : ℕ) : ℚ))) 360) 100 50 =
      "#ffff00" := by
  have e := hslToHex_eq_of (jsMod (((1 : ℕ) : ℚ) * (360 / ((6 : ℕ) : ℚ))) 360)
    255 255 0 (by norm_num [hslChannelColor, jsMod, jsTrunc, jsRound, min_def, max_def]) (by norm_num [hslChannelColor, jsMod, jsTrunc, jsRound, min_def, max_def]) (by norm_num [hslChannelColor, jsMod, jsTrunc, jsRound, min_def, max_def])
  rw [e]
  decide

lemma palette6_2 :
    hslToHex (jsMod (((2 : ℕ) : ℚ) * (360 / ((6 : ℕ) : ℚ))) 360) 100 50 =
      "#00ff00" := by
  have e := hslToHex_eq_of (jsMod (((2 : ℕ) : ℚ) * (360 / ((6 : ℕ) : ℚ))) 360)
    0 255 0 (by norm_num [hslChannelColor, jsMod, jsTrunc, jsRound, min_def, max_def]) (by norm_num [hslChannelColor, jsMod, jsTrunc, jsRound, min_def, max_def]) (by norm_num [hslChannelColor, jsMod, jsTrunc, jsRound, min_def, max_def])
  rw [e]
  decide

lemma palette6_3 :
    hslToHex (jsMod (((3 : ℕ) : ℚ) * (360 / ((6 : ℕ) : ℚ))) 360) 100 50 =
      "#00ffff" := by
  have e := hslToHex_eq_of (jsMod (((3 : ℕ) : ℚ) * (360 / ((6 : ℕ) : ℚ))) 360)
    0 255 255 (by norm_num [hslChannelColor, jsMod, jsTrunc, jsRound, min_def, max_def]) (by norm_num [hslChannelColor, jsMod, jsTrunc, jsRound, min_def, max_def]) (by norm_num [hslChannelColor, jsMod, jsTrunc, jsRound, min_def, max_def])
  rw [e]
  decide

lemma palette6_4 :
    hslToHex (jsMod (((4 : ℕ) : ℚ) * (360 / ((6 : ℕ) : ℚ))) 360) 100 50 =
      "#0000ff" := by
  have e := hslToHex_eq_of (jsMod (((4 : ℕ) : ℚ) * (360 / ((6 : ℕ) : ℚ))) 360)
    0 0 255 (by norm_num [hslChannelColor, jsMod, jsTrunc, jsRound, min_def, max_def]) (by norm_num [hslChannelColor, jsMod, jsTrunc, jsRound, min_def, max_def]) (by norm_num [hslChannelColor, jsMod, jsTrunc, jsRound, min_def, max_def])
  rw [e]
  decide

lemma palette6_5 :
    hslToHex (jsMod (((5 : ℕ) : ℚ) * (360 / ((6 : ℕ) : ℚ))) 360) 100 50 =
      "#ff00ff" := by
  have e := hslToHex_eq_of (jsMod (((5 : ℕ) : ℚ) * (360 / ((6 : ℕ) : ℚ))) 360)
    255 0 255 (by norm_num [hslChannelColor, jsMod, jsTrunc, jsRound, min_def, max_def]) (by norm_num [hslChannelColor, jsMod, jsTrunc, jsRound, min_def, max_def]) (by norm_num [hslChannelColor, jsMod, jsTrunc, jsRound, min_def, max_def])
  rw [e]
  decide

lemma palette7_0 :
    hslToHex (jsMod (((0 : ℕ) : ℚ) * (360 / ((7 : ℕ) : ℚ))) 360) 100 50 =
      "#ff0000" := by
  have e := hslToHex_eq_of (jsMod (((0 : ℕ) : ℚ) * (360 / ((7 : ℕ) : ℚ))) 360)
    255 0 0 (by norm_num [hslChannelColor, jsMod, jsTrunc, jsRound, min_def, max_def]) (by norm_num [hslChannelColor, jsMod, jsTrunc, jsRound, min_def, max_def]) (by norm_num [hslChannelColor, jsMod, jsTrunc, jsRound, min_def, max_def])
  rw [e]
  decide

lemma palette7_1 :
    hslToHex (jsMod (((1 : ℕ) : ℚ) * (360 / ((7 : ℕ) : ℚ))) 360) 100 50 =
      "#ffdb00" := by
  have e := hslToHex_eq_of (jsMod (((1 : ℕ) : ℚ) * (360 / ((7 : ℕ) : ℚ))) 360)
    255 219 0 (by norm_num [hslChannelColor, jsMod, jsTrunc, jsRound, min_def, max_def]) (by norm_num [hslChannelColor, jsMod, jsTrunc, jsRound, min_def, max_def]) (by norm_num [hslChannelColor, jsMod, jsTrunc, jsRound, min_def, max_def])
  rw [e]
  decide

lemma palette7_2 :
    hslToHex (jsMod (((2 : ℕ) : ℚ) * (360 / ((7 : ℕ) : ℚ))) 360) 100 50 =
      "#49ff00" := by
  have e := hslToHex_eq_of (jsMod (((2 : ℕ) : ℚ) * (360 / ((7 : ℕ) : ℚ))) 360)
    73 255 0 (by norm_num [hslChannelColor, jsMod, jsTrunc, jsRound, min_def, max_def]) (by norm_num [hslChannelColor, jsMod, jsTrunc, jsRound, min_def, max_def]) (by norm_num [hslChannelColor, jsMod, jsTrunc, jsRound, min_def, max_def])
  rw [e]
  decide

lemma palette7_3 :
    hslToHex (jsMod (((3 : ℕ) : ℚ) * (360 / ((7 : ℕ) : ℚ))) 360) 100 50 =
      "#00ff92" := by
  have e := hslToHex_eq_of (jsMod (((3 : ℕ) : ℚ) * (360 / ((7 : ℕ) : ℚ))) 360)
    0 255 146 (by norm_num [hslChannelColor, jsMod, jsTrunc, jsRound, min_def, max_def]) (by norm_num [hslChannelColor, jsMod, jsTrunc, jsRound, min_def, max_def]) (by norm_num [hslChannelColor, jsMod, jsTrunc, jsRound, min_def, max_def])
  rw [e]
  decide

lemma palette7_4 :
    hslToHex (jsMod (((4 : ℕ) : ℚ) * (360 / ((7 : ℕ) : ℚ))) 360) 100 50 =
      "#0092ff" := by
  have e := hslToHex_eq_of (jsMod (((4 : ℕ) : ℚ) * (360 / ((7 : ℕ) : ℚ))) 360)
    0 146 255 (by norm_num [hslChannelColor, jsMod, jsTrunc, jsRound, min_def, max_def]) (by norm_num [hslChannelColor, jsMod, jsTrunc, jsRound, min_def, max_def]) (by norm_num [hslChannelColor, jsMod, jsTrunc, jsRound, min_def, max_def])
  rw [e]
  decide

lemma palette7_5 :
    hslToHex (jsMod (((5 : ℕ) : ℚ) * (360 / ((7 : ℕ) : ℚ))) 360) 100 50 =
      "#4900ff" := by
  have e := hslToHex_eq_of (jsMod (((5 : ℕ) : ℚ) * (360 / ((7 : ℕ) : ℚ))) 360)
    73 0 255 (by norm_num [hslChannelColor, jsMod, jsTrunc, jsRound, min_def, max_def]) (by norm_num [hslChannelColor, jsMod, jsTrunc, jsRound, min_def, max_def]) (by norm_num [hslChannelColor, jsMod, jsTrunc, jsRound, min_def, max_def])
  rw [e]
  decide

lemma palette7_6 :
    hslToHex (jsMod (((6 : ℕ) : ℚ) * (360 / ((7 : ℕ) : ℚ))) 360) 100 50 =
      "#ff00db" := by
  have e := hslToHex_eq_of (jsMod (((6 : ℕ) : ℚ) * (360 / ((7 : ℕ) : ℚ))) 360)
    255 0 219 (by norm_num [hslChannelColor, jsMod, jsTrunc, jsRound, min_def, max_def]) (by norm_num [hslChannelColor, jsMod, jsTrunc, jsRound, min_def, max_def]) (by norm_num [hslChannelColor, jsMod, jsTrunc, jsRound, min_def, max_def])
  rw [e]
  decide

lemma colors_list_six :
    colors_list 6 = ["#ff0000", "#ffff00", "#00ff00", "#00ffff", "#0000ff", "#ff00ff"] := by
  have hrange : List.range 6 = [0, 1, 2, 3, 4, 5] := rfl
  unfold colors_list
  rw [hrange]
  simp only [List.map_cons, List.map_nil]
  rw [palette6_0, palette6_1, palette6_2, palette6_3, palette6_4, palette6_5]

lemma colors_list_seven :
    colors_list 7 = ["#ff0000", "#ffdb00", "#49ff00", "#00ff92", "#0092ff", "#4900ff", "#ff00db"] := by
  have hrange : List.range 7 = [0, 1, 2, 3, 4, 5, 6] := rfl
  unfold colors_list
  rw [hrange]
  simp only [List.map_cons, List.map_nil]
  rw [palette7_0, palette7_1, palette7_2, palette7_3, palette7_4, palette7_5, palette7_6]


lemma palette3061_0 :
    hslToHex (jsMod (((0 : ℕ) : ℚ) * (360 / ((3061 : ℕ) : ℚ))) 360) 100 50 =
      "#ff0000" := by
  have e := hslToHex_eq_of (jsMod (((0 : ℕ) : ℚ) * (360 / ((3061 : ℕ) : ℚ))) 360)
    255 0 0 (by norm_num [hslChannelColor, jsMod, jsTrunc, jsRound, min_def, max_def]) (by norm_num [hslChannelColor, jsMod, jsTrunc, jsRound, min_def, max_def]) (by norm_num [hslChannelColor, jsMod, jsTrunc, jsRound, min_def, max_def])
  rw [e]
  decide

lemma palette3061_1 :
    hslToHex (jsMod (((1 : ℕ) : ℚ) * (360 / ((3061 : ℕ) : ℚ))) 360) 100 50 =
      "#ff0000" := by
  have e := hslToHex_eq_of (jsMod (((1 : ℕ) : ℚ) * (360 / ((3061 : ℕ) : ℚ))) 360)
    255 0 0 (by norm_num [hslChannelColor, jsMod, jsTrunc, jsRound, min_def, max_def]) (by norm_num [hslChannelColor, jsMod, jsTrunc, jsRound, min_def, max_def]) (by norm_num [hslChannelColor, jsMod, jsTrunc, jsRound, min_def, max_def])
  rw [e]
  decide

lemma colors_list_length (n : ℕ) : (colors_list n).length = n := by
  unfold colors_list
  rw [List.length_map, List.length_range]

lemma colors_list_getElem? (n i : ℕ) (h : i < n) :
    (colors_list n)[i]? =
      some (hslToHex (jsMod ((i : ℚ) * (360 / (n : ℚ))) 360) 100 50) := by
  unfold colors_list
  rw [List.getElem?_map, List.getElem?_range h]
  rfl

/-- C9 (amended): `initializeColors(n)` returns exactly `n` ColorIds, a
random permutation of the palette of `n` evenly spaced hues converted at
full saturation and mid lightness; the ColorIds are pairwise distinct for
the palette sizes this program requests (`n = 6` or `n = 7`), though not
for every `n ≥ 1` (see the counterexample at `n = 3061`). -/
theorem initializeColors_spec (rand : JSRand) (_hr : ValidRand rand)
    (colorsLength k : ℕ) :
    (initializeColors rand colorsLength k).1.length = colorsLength ∧
      (initializeColors rand colorsLength k).1.Perm (colors_list colorsLength) ∧
      (colorsLength = 6 ∨ colorsLength = 7 →
        (initializeColors rand colorsLength k).1.Nodup) := by
  refine ⟨?_, shuffleFrom_fst_perm rand (colors_list colorsLength) k, ?_⟩
  · rw [show (initializeColors rand colorsLength k).1 =
        (shuffleFrom rand (colors_list colorsLength) k).1 from rfl]
    rw [shuffleFrom_length, colors_list_length]
  · rintro (rfl | rfl)
    · exact ((shuffleFrom_fst_perm rand (colors_list 6) k).nodup_iff).2
        (by rw [colors_list_six]; decide)
    · exact ((shuffleFrom_fst_perm rand (colors_list 7) k).nodup_iff).2
        (by rw [colors_list_seven]; decide)

/-- C9 witness: the palette of size 6 under the constant-zero tape. -/
theorem initializeColors_spec_witness :
    (initializeColors (fun _ => 0) 6 0).1.length = 6 ∧
      (initializeColors (fun _ => 0) 6 0).1.Perm (colors_list 6) ∧
      (initializeColors (fun _ => 0) 6 0).1.Nodup := by
  have h := initializeColors_spec (fun _ => 0)
    (fun n => ⟨le_refl 0, by norm_num⟩) 6 0
  exact ⟨h.1, h.2.1, h.2.2 (Or.inl rfl)⟩

/-- C9 counterexample: at `n = 3061 ≥ 1` (a legal request per the claim)
the hues of indices `0` and `1` both round to the ColorId `#ff0000`, so
the returned sequence is NOT pairwise distinct, for any valid tape — the
claim fails for large `n` because of 8-bit channel rounding. -/
theorem initializeColors_not_distinct :
    1 ≤ 3061 ∧ ValidRand (fun _ => 0) ∧
      ¬ ((initializeColors (fun _ => 0) 3061 0).1.Nodup) := by
  refine ⟨by norm_num, fun n => ⟨le_refl 0, by norm_num⟩, ?_⟩
  intro hnd
  have hnd' : (colors_list 3061).Nodup :=
    ((shuffleFrom_fst_perm (fun _ => 0) (colors_list 3061) 0).nodup_iff).1 hnd
  have h0 := colors_list_getElem? 3061 0 (by norm_num)
  have h1 := colors_list_getElem? 3061 1 (by norm_num)
  have heq : (colors_list 3061)[0]? = (colors_list 3061)[1]? := by
    rw [h0, h1, palette3061_0, palette3061_1]
  have h01 : (0 : ℕ) = 1 :=
    List.getElem?_inj (by rw [colors_list_length]; norm_num) hnd' heq
  omega

/-! ## The game-state invariant (C2, C5, C10) -/

/-- No floating balls: below any filled slot every slot is filled
(equivalently, no filled slot sits above an empty one). -/
def Contig {α : Type*} (col : List (Option α)) : Prop :=
  ∀ i j : ℕ, i ≤ j → col.getD j none ≠ none → col.getD i none ≠ none

/-- Well-formedness of the mutable game state: correct dimensions, every
column contiguous, and a selection (when present) pointing at the topmost
ball of an in-range column. -/
structure Inv {α : Type*} (columns height : ℕ) (s : GameState α) : Prop where
  boardLen : s.board.length = columns
  colLen : ∀ col ∈ s.board, col.length = height
  contig : ∀ col ∈ s.board, Contig col
  selOk : ∀ sc sr, s.selectedPiece = some (sc, sr) →
    sc < columns ∧ sr < height ∧
      (∃ x, slot2 s.board sc sr = some (some x)) ∧
      (∀ j, sr < j → j < height → slot2 s.board sc j = some none)

/-- The states reachable from an initial construction by clicks on
in-range columns. -/
inductive Reachable {α : Type*} (columns height : ℕ) : GameState α → Prop where
  | init : ∀ (rand : JSRand) (elements : List α) (k : ℕ) (b : Board α) (k2 : ℕ),
      ValidRand rand →
      initializeState rand elements columns height k = (some b, k2) →
      Reachable columns height ⟨b, none⟩
  | step : ∀ (s : GameState α) (c : ℕ), Reachable columns height s →
      c < columns → Reachable columns height (handleClick height c s)

lemma getD_eq_of_getElem? {α : Type*} {col : List (Option α)} {j : ℕ}
    {v : Option α} (h : col[j]? = some v) : col.getD j none = v := by
  rw [List.getD_eq_getElem?_getD, h]
  rfl

lemma findTopPieceAux_spec {α : Type*} (col : List (Option α)) :
    ∀ n : ℕ,
      (findTopPieceAux col n = -1 ∧ ∀ i < n, col[i]? = some none) ∨
      (∃ i : ℕ, i < n ∧ findTopPieceAux col n = (i : ℤ) ∧
        col[i]? ≠ some none ∧ ∀ j, i < j → j < n → col[j]? = some none) := by
  intro n
  induction n with
  | zero => exact Or.inl ⟨rfl, by omega⟩
  | succ m ih =>
    cases h : col[m]? with
    | none =>
      refine Or.inr ⟨m, by omega, ?_, by simp [h], by omega⟩
      rw [findTopPieceAux, h]
    | some a =>
      cases a with
      | none =>
        rcases ih with ⟨he, hall⟩ | ⟨i, hi, he, hne, habove⟩
        · refine Or.inl ⟨?_, ?_⟩
          · rw [findTopPieceAux, h]
            exact he
          · intro i hi
            rcases Nat.lt_succ_iff_lt_or_eq.mp hi with h1 | rfl
            · exact hall i h1
            · exact h
        · refine Or.inr ⟨i, by omega, ?_, hne, ?_⟩
          · rw [findTopPieceAux, h]
            exact he
          · intro j h1 h2
            rcases Nat.lt_succ_iff_lt_or_eq.mp h2 with h3 | rfl
            · exact habove j h1 h3
            · exact h
      | some x =>
        refine Or.inr ⟨m, by omega, ?_, by simp [h], by omega⟩
        rw [findTopPieceAux, h]

lemma findEmptyRowAux_eq_neg_one {α : Type*} (col : List (Option α))
    (stop : ℕ) :
    ∀ d i, stop + 1 - i ≤ d →
      (∀ j, i ≤ j → j ≤ stop → col[j]? ≠ some none) →
      findEmptyRowAux col stop i = -1 := by
  intro d
  induction d with
  | zero =>
    intro i hd hall
    rw [findEmptyRowAux, if_neg (by omega)]
  | succ d ih =>
    intro i hd hall
    rw [findEmptyRowAux]
    by_cases hi : i ≤ stop
    · rw [if_pos hi]
      cases h : col[i]? with
      | none =>
        exact ih (i + 1) (by omega) fun j h1 h2 => hall j (by omega) h2
      | some a =>
        cases a with
        | none => exact absurd h (hall i (le_refl i) hi)
        | some x =>
          exact ih (i + 1) (by omega) fun j h1 h2 => hall j (by omega) h2
    · rw [if_neg hi]

lemma findEmptyRowAux_eq_first {α : Type*} (col : List (Option α))
    (stop : ℕ) :
    ∀ d i t, stop + 1 - i ≤ d → i ≤ t → t ≤ stop →
      col[t]? = some none →
      (∀ j, i ≤ j → j < t → col[j]? ≠ some none) →
      findEmptyRowAux col stop i = (t : ℤ) := by
  intro d
  induction d with
  | zero => intro i t hd h1 h2 _ _; omega
  | succ d ih =>
    intro i t hd h1 h2 hempty hfirst
    rw [findEmptyRowAux, if_pos (by omega)]
    by_cases hit : i = t
    · subst hit
      rw [hempty]
    · have hne := hfirst i (le_refl i) (by omega)
      cases h : col[i]? with
      | none =>
        exact ih (i + 1) t (by omega) (by omega) h2 hempty
          fun j hj1 hj2 => hfirst j (by omega) hj2
      | some a =>
        cases a with
        | none => exact absurd h hne
        | some x =>
          exact ih (i + 1) t (by omega) (by omega) h2 hempty
            fun j hj1 hj2 => hfirst j (by omega) hj2

lemma setSlot_getElem?_same {α : Type*} (b : Board α) (c r : ℕ)
    (v : Option α) (col : List (Option α)) (h : b[c]? = some col) :
    (setSlot b c r v)[c]? = some (col.set r v) := by
  unfold setSlot
  rw [h]
  exact List.getElem?_set_self (by
    rcases List.getElem?_eq_some_iff.1 h with ⟨hlt, _⟩
    exact hlt)

lemma setSlot_getElem?_other {α : Type*} (b : Board α) (c r : ℕ)
    (v : Option α) (i : ℕ) (hne : i ≠ c) :
    (setSlot b c r v)[i]? = b[i]? := by
  unfold setSlot
  cases h : b[c]? with
  | none => rfl
  | some col => exact List.getElem?_set_ne (fun he => hne he.symm)

lemma setSlot_length {α : Type*} (b : Board α) (c r : ℕ) (v : Option α) :
    (setSlot b c r v).length = b.length := by
  unfold setSlot
  cases h : b[c]? with
  | none => rfl
  | some col => exact List.length_set b c _

lemma getD_set_self_none {α : Type*} (col : List (Option α)) (sr : ℕ) :
    (col.set sr none).getD sr none = none := by
  rw [List.getD_eq_getElem?_getD, List.getElem?_set]
  by_cases h : sr < col.length <;> simp [h]

lemma getD_set_ne {α : Type*} (col : List (Option α)) (r q : ℕ)
    (v : Option α) (h : r ≠ q) :
    (col.set r v).getD q none = col.getD q none := by
  rw [List.getD_eq_getElem?_getD, List.getElem?_set_ne h,
    ← List.getD_eq_getElem?_getD]

lemma getD_eq_none_of_le_length {α : Type*} (col : List (Option α)) (j : ℕ)
    (h : col.length ≤ j) : col.getD j none = none := by
  rw [List.getD_eq_getElem?_getD, List.getElem?_eq_none h]
  rfl

lemma contig_mkColumn {α : Type*} (colors : List α) (len height ci : ℕ) :
    Contig (mkColumn colors len height ci) := by
  intro i j hij hfill
  by_cases hj : j < height
  · have hgj := getD_eq_of_getElem? (mkColumn_getElem? colors len height ci j hj)
    rw [hgj] at hfill
    by_cases hjl : j < len
    · rw [if_pos hjl] at hfill
      have hcj : ci + j < colors.length := by
        by_contra hb
        rw [List.getElem?_eq_none (by omega)] at hfill
        exact hfill rfl
      have hi : i < height := by omega
      have hgi := getD_eq_of_getElem? (mkColumn_getElem? colors len height ci i hi)
      rw [hgi, if_pos (by omega : i < len),
        List.getElem?_eq_getElem (by omega : ci + i < colors.length)]
      simp
    · rw [if_neg hjl] at hfill
      exact absurd rfl hfill
  · rw [getD_eq_none_of_le_length _ j
      (by rw [mkColumn_length]; omega)] at hfill
    exact absurd rfl hfill

lemma contig_set_top {α : Type*} (col : List (Option α)) (sr : ℕ)
    (hcontig : Contig col)
    (habove : ∀ j, sr < j → col.getD j none = none) :
    Contig (col.set sr none) := by
  intro i j hij hfill
  by_cases hj : j = sr
  · subst hj
    rw [getD_set_self_none] at hfill
    exact absurd rfl hfill
  · rw [getD_set_ne col sr j none (fun he => hj he.symm)] at hfill
    have hjlt : j < sr := by
      rcases Nat.lt_or_ge j sr with h1 | h1
      · exact h1
      · exact absurd (habove j (by omega)) hfill
    rw [getD_set_ne col sr i none (by omega)]
    exact hcontig i j hij hfill

lemma contig_set_fill {α : Type*} (col : List (Option α)) (tr : ℕ) (x : α)
    (hcontig : Contig col) (htr : tr < col.length)
    (hmin : ∀ j, j < tr → col.getD j none ≠ none) :
    Contig (col.set tr (some x)) := by
  intro i j hij hfill
  by_cases hi : i = tr
  · subst hi
    rw [List.getD_eq_getElem?_getD, List.getElem?_set_self htr]
    simp
  · rw [getD_set_ne col tr i (some x) (fun he => hi he.symm)]
    by_cases hilt : i < tr
    · exact hmin i hilt
    · have hjne : j ≠ tr := by omega
      rw [getD_set_ne col tr j (some x) (fun he => hjne he.symm)] at hfill
      exact hcontig i j hij hfill

/-- The multiset of balls on a board. -/
def boardBalls {α : Type*} (b : Board α) : Multiset α :=
  (b.map fun col => ((col.filterMap id : List α) : Multiset α)).sum

lemma boardBalls_append_cons {α : Type*} (A B : Board α)
    (col : List (Option α)) :
    boardBalls (A ++ col :: B) =
      boardBalls A + ((col.filterMap id : List α) : Multiset α) +
        boardBalls B := by
  unfold boardBalls
  rw [List.map_append, List.map_cons, List.sum_append, List.sum_cons]
  abel

lemma boardBalls_set {α : Type*} (b : Board α) (c : ℕ)
    (col col' : List (Option α)) (h : b[c]? = some col) :
    boardBalls (b.set c col') + ((col.filterMap id : List α) : Multiset α) =
      boardBalls b + ((col'.filterMap id : List α) : Multiset α) := by
  rcases List.getElem?_eq_some_iff.1 h with ⟨hc, hv⟩
  have hdecomp : b = b.take c ++ col :: b.drop (c + 1) := by
    conv_lhs => rw [← List.take_append_drop c b]
    rw [← List.getElem_cons_drop b c hc, hv]
  have hset : b.set c col' = b.take c ++ col' :: b.drop (c + 1) := by
    rw [List.set_eq_take_append_cons_drop, if_pos hc]
  calc boardBalls (b.set c col') + ((col.filterMap id : List α) : Multiset α)
      = boardBalls (b.take c ++ col' :: b.drop (c + 1)) +
          ((col.filterMap id : List α) : Multiset α) := by rw [hset]
    _ = boardBalls (b.take c) + ((col'.filterMap id : List α) : Multiset α) +
          boardBalls (b.drop (c + 1)) +
          ((col.filterMap id : List α) : Multiset α) := by
        rw [boardBalls_append_cons]
    _ = boardBalls (b.take c) + ((col.filterMap id : List α) : Multiset α) +
          boardBalls (b.drop (c + 1)) +
          ((col'.filterMap id : List α) : Multiset α) := by abel
    _ = boardBalls (b.take c ++ col :: b.drop (c + 1)) +
          ((col'.filterMap id : List α) : Multiset α) := by
        rw [boardBalls_append_cons]
    _ = boardBalls b + ((col'.filterMap id : List α) : Multiset α) := by
        rw [← hdecomp]

lemma filterMap_set_none_to_some {α : Type*} (col : List (Option α)) (r : ℕ)
    (x : α) (h : col[r]? = some none) :
    (((col.set r (some x)).filterMap id : List α) : Multiset α) =
      ((col.filterMap id : List α) : Multiset α) + {x} := by
  rcases List.getElem?_eq_some_iff.1 h with ⟨hr, hv⟩
  have hdecomp : col = col.take r ++ none :: col.drop (r + 1) := by
    conv_lhs => rw [← List.take_append_drop r col]
    rw [← List.getElem_cons_drop col r hr, hv]
  have hset : col.set r (some x) = col.take r ++ some x :: col.drop (r + 1) := by
    rw [List.set_eq_take_append_cons_drop, if_pos hr]
  rw [hset]
  conv_rhs => rw [hdecomp]
  rw [List.filterMap_append, List.filterMap_append]
  simp only [List.filterMap_cons]
  simp only [id]
  rw [← Multiset.coe_add, ← Multiset.coe_add]
  rw [← Multiset.cons_coe, ← Multiset.singleton_add]
  abel

lemma filterMap_set_some_to_none {α : Type*} (col : List (Option α)) (r : ℕ)
    (x : α) (h : col[r]? = some (some x)) :
    ((col.filterMap id : List α) : Multiset α) =
      (((col.set r none).filterMap id : List α) : Multiset α) + {x} := by
  rcases List.getElem?_eq_some_iff.1 h with ⟨hr, hv⟩
  have hdecomp : col = col.take r ++ some x :: col.drop (r + 1) := by
    conv_lhs => rw [← List.take_append_drop r col]
    rw [← List.getElem_cons_drop col r hr, hv]
  have hset : col.set r none = col.take r ++ none :: col.drop (r + 1) := by
    rw [List.set_eq_take_append_cons_drop, if_pos hr]
  rw [hset]
  conv_lhs => rw [hdecomp]
  rw [List.filterMap_append, List.filterMap_append]
  simp only [List.filterMap_cons]
  simp only [id]
  rw [← Multiset.coe_add, ← Multiset.coe_add]
  rw [← Multiset.cons_coe, ← Multiset.singleton_add]
  abel

lemma slot2_of_col {α : Type*} {b : Board α} {c : ℕ} {col : List (Option α)}
    (h : b[c]? = some col) (j : ℕ) : slot2 b c j = col[j]? := by
  unfold slot2
  rw [h]
  rfl

lemma exists_col {α : Type*} {b : Board α} {c : ℕ} (h : c < b.length) :
    ∃ col, b[c]? = some col := ⟨b[c], List.getElem?_eq_getElem h⟩

lemma setSlot_eq_set {α : Type*} {b : Board α} {c r : ℕ} {v : Option α}
    {col : List (Option α)} (h : b[c]? = some col) :
    setSlot b c r v = b.set c (col.set r v) := by
  unfold setSlot
  rw [h]

lemma handleFirstClick_inv {α : Type*} {columns height : ℕ} {s : GameState α}
    (hinv : Inv columns height s) (c : ℕ) (hc : c < columns) :
    Inv columns height (handleFirstClick height c s) ∧
      (handleFirstClick height c s).board = s.board := by
  obtain ⟨colC, hcol⟩ : ∃ col, s.board[c]? = some col :=
    exists_col (by rw [hinv.boardLen]; exact hc)
  have hmem : colC ∈ s.board := List.getElem?_mem hcol
  have hlenC : colC.length = height := hinv.colLen colC hmem
  have hft : findTopPiece s.board height c = findTopPieceAux colC height := by
    unfold findTopPiece
    rw [hcol]
    rfl
  have hstep : handleFirstClick height c s =
      (if findTopPiece s.board height c = -1 then
        { s with selectedPiece := none }
      else
        { s with selectedPiece := some (c, (findTopPiece s.board height c).toNat) }) :=
    rfl
  rcases findTopPieceAux_spec colC height with ⟨he, _⟩ | ⟨i, hi, he, hne, habove⟩
  · rw [hstep, hft, he, if_pos rfl]
    refine ⟨⟨hinv.boardLen, hinv.colLen, hinv.contig, ?_⟩, rfl⟩
    intro sc sr hab
    simp at hab
  · rw [hstep, hft, he, if_neg (by omega : ¬ ((i : ℤ) = -1))]
    refine ⟨⟨hinv.boardLen, hinv.colLen, hinv.contig, ?_⟩, rfl⟩
    intro sc sr hab
    simp only [Option.some.injEq, Prod.mk.injEq, Int.toNat_natCast] at hab
    obtain ⟨rfl, rfl⟩ := hab
    refine ⟨hc, by omega, ?_, ?_⟩
    · rw [slot2_of_col hcol]
      rw [List.getElem?_eq_getElem (by omega : i < colC.length)] at hne ⊢
      cases hx : colC[i] with
      | none => rw [hx] at hne; exact absurd rfl hne
      | some x => exact ⟨x, rfl⟩
    · intro j h1 h2
      rw [slot2_of_col hcol]
      exact habove j h1 h2

lemma handleSecondClick_eq {α : Type*} (height c : ℕ) (s : GameState α)
    (sc sr : ℕ) (hsel : s.selectedPiece = some (sc, sr)) :
    handleSecondClick height c s =
      (if c = sc then { s with selectedPiece := none }
       else if findEmptyRow s.board height c ≠ -1 then
         { board := setSlot
             (setSlot s.board c (findEmptyRow s.board height c).toNat
               (jsGet2 s.board sc sr)) sc sr none,
           selectedPiece := none }
       else { s with selectedPiece := none }) := by
  rw [handleSecondClick, hsel]

lemma handleSecondClick_inv {α : Type*} [DecidableEq α] {columns height : ℕ}
    {s : GameState α} (hinv : Inv columns height s) (c : ℕ) (hc : c < columns)
    (sc sr : ℕ) (hsel : s.selectedPiece = some (sc, sr)) :
    Inv columns height (handleSecondClick height c s) ∧
      boardBalls (handleSecondClick height c s).board = boardBalls s.board := by
  obtain ⟨hsc, hsr, ⟨x, hslot⟩, habove⟩ := hinv.selOk sc sr hsel
  rw [handleSecondClick_eq height c s sc sr hsel]
  by_cases hcsc : c = sc
  · rw [if_pos hcsc]
    exact ⟨⟨hinv.boardLen, hinv.colLen, hinv.contig,
      by intro a b hab; simp at hab⟩, rfl⟩
  · rw [if_neg hcsc]
    obtain ⟨colT, hcolT⟩ : ∃ col, s.board[c]? = some col :=
      exists_col (by rw [hinv.boardLen]; exact hc)
    have hmemT : colT ∈ s.board := List.getElem?_mem hcolT
    have hlenT : colT.length = height := hinv.colLen colT hmemT
    obtain ⟨colS, hcolS, hsrS⟩ : ∃ col, s.board[sc]? = some col ∧
        col[sr]? = some (some x) := by
      unfold slot2 at hslot
      cases hb : s.board[sc]? with
      | none => rw [hb] at hslot; simp at hslot
      | some col => rw [hb] at hslot; exact ⟨col, rfl, hslot⟩
    have hmemS : colS ∈ s.board := List.getElem?_mem hcolS
    have hlenS : colS.length = height := hinv.colLen colS hmemS
    have haboveS : ∀ j, sr < j → colS.getD j none = none := by
      intro j hj
      by_cases hjh : j < height
      · have hj2 := habove j hj hjh
        rw [slot2_of_col hcolS] at hj2
        exact getD_eq_of_getElem? hj2
      · exact getD_eq_none_of_le_length _ _ (by omega)
    by_cases hfull : ∀ j, j < height → colT.getD j none ≠ none
    · have hfer : findEmptyRow s.board height c = -1 := by
        unfold findEmptyRow
        rw [hcolT]
        apply findEmptyRowAux_eq_neg_one colT height (height + 1) 0 (by omega)
        intro j _ hj
        rcases Nat.lt_or_ge j height with hjh | hjh
        · intro hcontra
          exact hfull j hjh (getD_eq_of_getElem? hcontra)
        · rw [List.getElem?_eq_none (by omega)]
          simp
      rw [hfer, if_neg (by simp : ¬ ((-1 : ℤ) ≠ -1))]
      exact ⟨⟨hinv.boardLen, hinv.colLen, hinv.contig,
        by intro a b hab; simp at hab⟩, rfl⟩
    · push_neg at hfull
      obtain ⟨j0, hj0h, hj0e⟩ := hfull
      have hP : ∃ u, u < height ∧ colT.getD u none = none := ⟨j0, hj0h, hj0e⟩
      obtain ⟨hth, hte⟩ := Nat.find_spec hP
      have hmin : ∀ m, m < Nat.find hP → colT.getD m none ≠ none := by
        intro m hm hcon
        exact Nat.find_min hP hm ⟨by omega, hcon⟩
      have htlen : Nat.find hP < colT.length := by omega
      have htsome : colT[Nat.find hP]? = some none := by
        rw [List.getElem?_eq_getElem htlen, ← List.getD_eq_getElem colT none htlen,
          hte]
      have hfer : findEmptyRow s.board height c = ((Nat.find hP : ℕ) : ℤ) := by
        unfold findEmptyRow
        rw [hcolT]
        show findEmptyRowAux colT height 0 = ((Nat.find hP : ℕ) : ℤ)
        apply findEmptyRowAux_eq_first colT height (height + 1) 0 (Nat.find hP)
          (by omega) (by omega) (by omega) htsome
        intro j _ hjt hcon
        exact hmin j hjt (getD_eq_of_getElem? hcon)
      have hmoved : jsGet2 s.board sc sr = some x := by
        unfold jsGet2
        rw [hslot]
        rfl
      rw [hfer, if_pos (by omega : ¬ (((Nat.find hP : ℕ) : ℤ) = -1)),
        Int.toNat_natCast, hmoved]
      have hscc : sc ≠ c := fun he => hcsc he.symm
      have hb1c : (setSlot s.board c (Nat.find hP) (some x))[c]? =
          some (colT.set (Nat.find hP) (some x)) :=
        setSlot_getElem?_same s.board c (Nat.find hP) (some x) colT hcolT
      have hb1sc : (setSlot s.board c (Nat.find hP) (some x))[sc]? = some colS := by
        rw [setSlot_getElem?_other s.board c (Nat.find hP) (some x) sc hscc]
        exact hcolS
      have hb2c : (setSlot (setSlot s.board c (Nat.find hP) (some x)) sc sr
          none)[c]? = some (colT.set (Nat.find hP) (some x)) := by
        rw [setSlot_getElem?_other _ sc sr none c hcsc]
        exact hb1c
      have hb2sc : (setSlot (setSlot s.board c (Nat.find hP) (some x)) sc sr
          none)[sc]? = some (colS.set sr none) :=
        setSlot_getElem?_same _ sc sr none colS hb1sc
      have hb2other : ∀ i, i ≠ c → i ≠ sc →
          (setSlot (setSlot s.board c (Nat.find hP) (some x)) sc sr
            none)[i]? = s.board[i]? := by
        intro i hic hisc
        rw [setSlot_getElem?_other _ sc sr none i hisc,
          setSlot_getElem?_other s.board c (Nat.find hP) (some x) i hic]
      constructor
      · constructor
        · rw [setSlot_length, setSlot_length]
          exact hinv.boardLen
        · intro col hmem'
          obtain ⟨i, hilt, hieq⟩ := List.getElem_of_mem hmem'
          have hii : (setSlot (setSlot s.board c (Nat.find hP) (some x)) sc sr
              none)[i]? = some col := by
            rw [List.getElem?_eq_getElem hilt, hieq]
          by_cases hic : i = c
          · subst hic
            rw [hb2c] at hii
            obtain rfl : colT.set (Nat.find hP) (some x) = col := by
              simpa using hii
            rw [List.length_set]
            exact hlenT
          · by_cases hisc : i = sc
            · subst hisc
              rw [hb2sc] at hii
              obtain rfl : colS.set sr none = col := by simpa using hii
              rw [List.length_set]
              exact hlenS
            · rw [hb2other i hic hisc] at hii
              exact hinv.colLen col (List.getElem?_mem hii)
        · intro col hmem'
          obtain ⟨i, hilt, hieq⟩ := List.getElem_of_mem hmem'
          have hii : (setSlot (setSlot s.board c (Nat.find hP) (some x)) sc sr
              none)[i]? = some col := by
            rw [List.getElem?_eq_getElem hilt, hieq]
          by_cases hic : i = c
          · subst hic
            rw [hb2c] at hii
            obtain rfl : colT.set (Nat.find hP) (some x) = col := by
              simpa using hii
            exact contig_set_fill colT (Nat.find hP) x
              (hinv.contig colT hmemT) htlen hmin
          · by_cases hisc : i = sc
            · subst hisc
              rw [hb2sc] at hii
              obtain rfl : colS.set sr none = col := by simpa using hii
              exact contig_set_top colS sr (hinv.contig colS hmemS) haboveS
            · rw [hb2other i hic hisc] at hii
              exact hinv.contig col (List.getElem?_mem hii)
        · intro a b hab
          simp at hab
      · show boardBalls (setSlot (setSlot s.board c (Nat.find hP) (some x))
          sc sr none) = boardBalls s.board
        have heq1 : boardBalls (setSlot s.board c (Nat.find hP) (some x)) +
            ((colT.filterMap id : List α) : Multiset α) =
            boardBalls s.board +
              (((colT.set (Nat.find hP) (some x)).filterMap id :
                List α) : Multiset α) := by
          rw [setSlot_eq_set hcolT]
          exact boardBalls_set s.board c colT _ hcolT
        have heq2 : boardBalls (setSlot (setSlot s.board c (Nat.find hP)
              (some x)) sc sr none) +
            ((colS.filterMap id : List α) : Multiset α) =
            boardBalls (setSlot s.board c (Nat.find hP) (some x)) +
              (((colS.set sr none).filterMap id : List α) : Multiset α) := by
          rw [setSlot_eq_set hb1sc]
          exact boardBalls_set _ sc colS _ hb1sc
        have hMT : (((colT.set (Nat.find hP) (some x)).filterMap id :
            List α) : Multiset α) =
            ((colT.filterMap id : List α) : Multiset α) + {x} :=
          filterMap_set_none_to_some colT (Nat.find hP) x htsome
        have hMS : ((colS.filterMap id : List α) : Multiset α) =
            (((colS.set sr none).filterMap id : List α) : Multiset α) + {x} :=
          filterMap_set_some_to_none colS sr x hsrS
        have e1 : boardBalls (setSlot s.board c (Nat.find hP) (some x)) =
            boardBalls s.board + {x} := by
          have h' : boardBalls (setSlot s.board c (Nat.find hP) (some x)) +
              ((colT.filterMap id : List α) : Multiset α) =
              (boardBalls s.board + {x}) +
                ((colT.filterMap id : List α) : Multiset α) := by
            rw [heq1, hMT]
            abel
          exact add_right_cancel h'
        have e2 : boardBalls (setSlot (setSlot s.board c (Nat.find hP)
              (some x)) sc sr none) + {x} =
            boardBalls s.board + {x} := by
          have h' : (boardBalls (setSlot (setSlot s.board c (Nat.find hP)
                (some x)) sc sr none) + {x}) +
              (((colS.set sr none).filterMap id : List α) : Multiset α) =
              (boardBalls s.board + {x}) +
                (((colS.set sr none).filterMap id : List α) : Multiset α) := by
            have h2' := heq2
            rw [hMS, e1] at h2'
            calc (boardBalls (setSlot (setSlot s.board c (Nat.find hP)
                  (some x)) sc sr none) + {x}) +
                (((colS.set sr none).filterMap id : List α) : Multiset α)
                = boardBalls (setSlot (setSlot s.board c (Nat.find hP)
                    (some x)) sc sr none) +
                  ((((colS.set sr none).filterMap id : List α) : Multiset α) +
                    {x}) := by abel
              _ = (boardBalls s.board + {x}) +
                  (((colS.set sr none).filterMap id : List α) : Multiset α) := by
                  rw [h2']
          exact add_right_cancel h'
        exact add_right_cancel e2

lemma handleClick_inv {α : Type*} [DecidableEq α] {columns height : ℕ}
    {s : GameState α} (hinv : Inv columns height s) (c : ℕ) (hc : c < columns) :
    Inv columns height (handleClick height c s) ∧
      boardBalls (handleClick height c s).board = boardBalls s.board := by
  cases hsel : s.selectedPiece with
  | none =>
    have hck : handleClick height c s = handleFirstClick height c s := by
      rw [handleClick, hsel]
    rw [hck]
    obtain ⟨h1, h2⟩ := handleFirstClick_inv hinv c hc
    exact ⟨h1, by rw [h2]⟩
  | some sel =>
    have hck : handleClick height c s = handleSecondClick height c s := by
      rw [handleClick, hsel]
    rw [hck]
    exact handleSecondClick_inv hinv c hc sel.1 sel.2 (by rw [hsel])

lemma buildColumns_length {α : Type*} (colors : List α) :
    ∀ (l : List ℕ) (height ci : ℕ),
      (buildColumns colors l height ci).length = l.length := by
  intro l
  induction l with
  | nil => intro height ci; rfl
  | cons len rest ih =>
    intro height ci
    rw [buildColumns, List.length_cons, List.length_cons, ih]

lemma buildColumns_cols {α : Type*} (colors : List α) :
    ∀ (l : List ℕ) (height ci : ℕ) (col : List (Option α)),
      col ∈ buildColumns colors l height ci →
      col.length = height ∧ Contig col := by
  intro l
  induction l with
  | nil => intro height ci col h; rw [buildColumns] at h; simp at h
  | cons len rest ih =>
    intro height ci col h
    rw [buildColumns] at h
    rcases List.mem_cons.mp h with rfl | h'
    · exact ⟨mkColumn_length colors len height ci,
        contig_mkColumn colors len height ci⟩
    · exact ih height (ci + len) col h'

lemma initializeState_eq {α : Type*} (rand : JSRand) (elements : List α)
    (columns height k : ℕ) :
    initializeState rand elements columns height k =
      (match (chooseBallsInColumn rand columns elements.length height
          (shuffleFrom rand elements k).2).1 with
       | .error _ =>
           (none, (chooseBallsInColumn rand columns elements.length height
             (shuffleFrom rand elements k).2).2)
       | .ok ballsInColumns =>
           (some (buildColumns (shuffleFrom rand elements k).1 ballsInColumns
               height 0),
             (chooseBallsInColumn rand columns elements.length height
               (shuffleFrom rand elements k).2).2)) := rfl

lemma initializeState_inv {α : Type*} (rand : JSRand) (elements : List α)
    (columns height k : ℕ) (b : Board α) (k2 : ℕ)
    (h : initializeState rand elements columns height k = (some b, k2)) :
    Inv columns height (⟨b, none⟩ : GameState α) := by
  rw [initializeState_eq] at h
  cases hq : (chooseBallsInColumn rand columns elements.length height
      (shuffleFrom rand elements k).2).1 with
  | error e =>
    rw [hq] at h
    simp at h
  | ok balls =>
    rw [hq] at h
    simp only [Prod.mk.injEq, Option.some.injEq] at h
    obtain ⟨hb, -⟩ := h
    subst hb
    have hsound := choose_sound rand columns elements.length height
      (shuffleFrom rand elements k).2 balls
      ((chooseBallsInColumn rand columns elements.length height
        (shuffleFrom rand elements k).2).2) (by rw [← hq])
    refine ⟨?_, ?_, ?_, ?_⟩
    · show (buildColumns (shuffleFrom rand elements k).1 balls height 0).length =
        columns
      rw [buildColumns_length]
      exact hsound.1
    · intro col hmem
      exact (buildColumns_cols _ _ _ _ col hmem).1
    · intro col hmem
      exact (buildColumns_cols _ _ _ _ col hmem).2
    · intro a b hab
      simp at hab

lemma reachable_inv {α : Type*} [DecidableEq α] {columns height : ℕ}
    {s : GameState α} (h : Reachable columns height s) :
    Inv columns height s := by
  induction h with
  | init rand elements k b k2 hr hinit =>
    exact initializeState_inv rand elements columns height k b k2 hinit
  | step s c hs hc ih => exact (handleClick_inv ih c hc).1

/-- C2: in every state reachable from an initial construction by any finite
sequence of `handleClick` events with in-range column indices, every
column's filled slots form a contiguous run starting at row 0 — no filled
slot lies above an empty slot of the same column. -/
theorem reachable_no_floating {α : Type*} [DecidableEq α]
    (columns height : ℕ) (s : GameState α)
    (h : Reachable columns height s) :
    ∀ col ∈ s.board, Contig col :=
  (reachable_inv h).contig

lemma choose_one_one :
    chooseBallsInColumn (fun _ => (0 : ℚ)) 1 1 1 0 = (.ok [1], 0) := by
  show chooseBallsInColumn (fun _ => (0 : ℚ)) (0 + 1) 1 1 0 = (.ok [1], 0)
  rw [chooseBallsInColumn]
  rw [if_neg (by norm_num), if_pos rfl]

lemma initializeState_example :
    initializeState (fun _ => (0 : ℚ)) [(0 : ℕ)] 1 1 0 =
      (some [[some 0]], 0) := by
  rw [initializeState_eq]
  have hshuffle : shuffleFrom (fun _ => (0 : ℚ)) [(0 : ℕ)] 0 = ([0], 0) := rfl
  rw [hshuffle]
  rw [show [(0 : ℕ)].length = 1 from rfl]
  rw [show chooseBallsInColumn (fun _ => (0 : ℚ)) 1 1 1 (([(0 : ℕ)], 0) :
      List ℕ × ℕ).2 = (.ok [1], 0) from choose_one_one]
  rfl

/-- C2 witness: the single column of a concrete reachable state (a fresh
1-column, 1-row game) is contiguous. -/
theorem reachable_no_floating_witness : Contig [some (0 : ℕ)] :=
  reachable_no_floating 1 1 (⟨[[some (0 : ℕ)]], none⟩ : GameState ℕ)
    (Reachable.init (fun _ => 0) [0] 0 [[some 0]] 0
      (fun n => ⟨le_refl 0, by norm_num⟩) initializeState_example)
    [some 0] (by simp)

/-- C10: the multiset of balls on the playable board is invariant under
every `handleClick` with an in-range column index, starting from any
reachable state: a successful move transfers exactly the topmost ball of
the source column to the lowest empty slot of the target column, and every
other click outcome (pickup, same-column cancel, full-column rejection)
leaves every slot unchanged — no ball is duplicated or destroyed. -/
theorem handleClick_boardBalls {α : Type*} [DecidableEq α]
    (columns height : ℕ) (s : GameState α) (c : ℕ)
    (h : Reachable columns height s) (hc : c < columns) :
    boardBalls (handleClick height c s).board = boardBalls s.board :=
  (handleClick_inv (reachable_inv h) c hc).2

/-- C10 witness: clicking column 0 of the fresh 1-column game preserves
the ball multiset. -/
theorem handleClick_boardBalls_witness :
    boardBalls (handleClick 1 0
        (⟨[[some (0 : ℕ)]], none⟩ : GameState ℕ)).board =
      boardBalls ([[some (0 : ℕ)]] : Board ℕ) :=
  handleClick_boardBalls 1 1 ⟨[[some 0]], none⟩ 0
    (Reachable.init (fun _ => 0) [0] 0 [[some 0]] 0
      (fun n => ⟨le_refl 0, by norm_num⟩) initializeState_example)
    (by omega)

/-- C5: with a piece selected and a click on a different, completely full
target column, the move is rejected silently: `findEmptyRow` returns `-1`
and never an out-of-range index — its loop bound `i <= HEIGHT` reads one
slot past the rows, but that read is JS `undefined`, which fails the
`=== null` test — the board is unchanged slot for slot, and the selection
is cleared (back to Idle) with no error. -/
theorem full_column_click_rejected {α : Type*} (height c sc sr : ℕ)
    (s : GameState α) (hsel : s.selectedPiece = some (sc, sr)) (hne : c ≠ sc)
    (colT : List (Option α)) (hcol : s.board[c]? = some colT)
    (hlen : colT.length = height)
    (hfull : ∀ j, j < height → colT.getD j none ≠ none) :
    findEmptyRow s.board height c = -1 ∧
      handleClick height c s = ⟨s.board, none⟩ := by
  have hfer : findEmptyRow s.board height c = -1 := by
    unfold findEmptyRow
    rw [hcol]
    show findEmptyRowAux colT height 0 = -1
    apply findEmptyRowAux_eq_neg_one colT height (height + 1) 0 (by omega)
    intro j _ hj
    rcases Nat.lt_or_ge j height with hjh | hjh
    · intro hcontra
      exact hfull j hjh (getD_eq_of_getElem? hcontra)
    · rw [List.getElem?_eq_none (by omega)]
      simp
  refine ⟨hfer, ?_⟩
  have hck : handleClick height c s = handleSecondClick height c s := by
    rw [handleClick, hsel]
  rw [hck, handleSecondClick_eq height c s sc sr hsel, if_neg hne,
    hfer, if_neg (by simp : ¬ ((-1 : ℤ) ≠ -1))]

/-- C5 witness: a 2-column, height-1 board with column 1 full and the ball
of column 0 selected. -/
theorem full_column_click_rejected_witness :
    findEmptyRow ([[some 1], [some 2]] : Board ℕ) 1 1 = -1 ∧
      handleClick 1 1 (⟨[[some 1], [some 2]], some (0, 0)⟩ : GameState ℕ) =
        ⟨[[some 1], [some 2]], none⟩ :=
  full_column_click_rejected 1 1 0 0
    (⟨[[some 1], [some 2]], some (0, 0)⟩ : GameState ℕ) rfl (by omega)
    [some 2] rfl rfl (by decide)

end TargetTowers
